import Mathlib

/-
Verification of the SharkAI adaptive poker decision engine
(`texas_holdem/ai/shark_ai.py`).

Shallow embedding conventions:
* Python floats are embedded as exact rationals (`ℚ`); all constants in the
  source are short decimal literals, so the arithmetic coincides.
* Chip amounts, pots and bets are integers (`ℤ`), as in the source.
* Python `float('inf')` (the SPR of an empty pot) is embedded as the `none`
  case of `Option ℚ`.
* The single random draw `random.random()` used by the post-community
  weighted sampling is passed in explicitly as a rational `r`.
* Python dicts keyed by strings with fixed key sets become structures; the
  implied-odds result dict, whose key set differs between the two return
  branches, keeps `Option` fields (a missing key is `none`).
-/

namespace TexasShark

/-- Action tags of a decision result.  Modelled from the spec: the `Action`
enumeration lives in `texas_holdem/utils/constants.py`, which is not part of
the core source; §3 of the spec fixes its six tags
(fold/check/call/bet/raise/all-in) and §4.6 relies on an action tag comparing
equal to its lowercase name, which `action_map` below realises. -/
inductive Action where
  | fold
  | check
  | call
  | bet
  | raise
  | allin
  deriving DecidableEq

/-- The strategy configuration record: the shape of both `base_config` and
`current_config` in `SharkAI.__init__`. -/
structure StrategyConfig where
  vpip_range : ℚ × ℚ
  pfr_range : ℚ × ℚ
  af_factor : ℚ
  bluff_freq : ℚ
  call_preflop : ℚ
  raise_preflop : ℚ
  bet_postflop : ℚ
  fold_to_raise : ℚ
  adaptation_start : ℕ
  learning_rate : ℚ
  deriving DecidableEq

/-- `SharkAI.base_config`: the immutable TAG baseline fixed in
`SharkAI.__init__`. -/
def base_config : StrategyConfig :=
  { vpip_range := (12, 18)
    pfr_range := (10, 16)
    af_factor := 2.5
    bluff_freq := 0.15
    call_preflop := 0.20
    raise_preflop := 0.25
    bet_postflop := 0.45
    fold_to_raise := 0.60
    adaptation_start := 20
    learning_rate := 0.1 }

/-- One entry of the draw-findings dict produced by
`DrawEvaluator.identify_draws`: an outs count and a heuristic equity. -/
structure DrawFinding where
  outs : ℕ
  equity : ℚ
  deriving DecidableEq

/-- `DrawEvaluator.calculate_total_equity`: `0.0` for an empty findings dict,
otherwise `max(d['equity'] for d in draws.values())`. -/
def calculate_total_equity (draws : List (String × DrawFinding)) : ℚ :=
  match draws with
  | [] => 0
  | d :: rest => rest.foldl (fun acc p => max acc p.2.equity) d.2.equity

/-- `PositionAwareness.POSITION_MULTIPLIERS` together with the `.get(position,
1.0)` lookup used by `get_adjusted_threshold`. -/
def POSITION_MULTIPLIERS (position : String) : ℚ :=
  if position = "EP" then 0.70
  else if position = "MP" then 0.85
  else if position = "CO" then 1.10
  else if position = "BTN" then 1.25
  else if position = "SB" then 0.90
  else if position = "BB" then 1.00
  else 1.0

/-- `PositionAwareness.get_adjusted_threshold`. -/
def get_adjusted_threshold (base_threshold : ℚ) (position : String) : ℚ :=
  base_threshold * POSITION_MULTIPLIERS position

/-- `PotOddsCalculator.calculate_direct_odds`. -/
def calculate_direct_odds (amount_to_call total_pot : ℤ) : ℚ :=
  if amount_to_call ≤ 0 then 0
  else (amount_to_call : ℚ) / ((total_pot : ℚ) + (amount_to_call : ℚ))

/-- Result dict of `PotOddsCalculator.calculate_implied_odds`.  The two
return statements of the source produce dicts with different key sets, so
each rational field is an `Option`: `none` means the key is absent from the
returned dict. -/
structure ImpliedOddsResult where
  direct_equity_needed : Option ℚ
  implied_equity_needed : Option ℚ
  potential_future_win : Option ℚ
  total_equity : Option ℚ
  should_call : Bool
  deriving DecidableEq

/-- The street multiplier table of `calculate_implied_odds` with its
`.get(street, 1.0)` default. -/
def street_multiplier (street : String) : ℚ :=
  if street = "flop" then 2.5
  else if street = "turn" then 1.3
  else if street = "river" then 1.0
  else 1.0

/-- `PotOddsCalculator.calculate_implied_odds`. -/
def calculate_implied_odds (amount_to_call total_pot effective_stack : ℤ)
    (street : String) (draw_equity : ℚ) : ImpliedOddsResult :=
  if amount_to_call ≤ 0 then
    { direct_equity_needed := none
      implied_equity_needed := none
      potential_future_win := none
      total_equity := some 0
      should_call := true }
  else
    let multiplier := street_multiplier street
    let potential_future_win :=
      min ((effective_stack : ℚ) * 0.3 * draw_equity * multiplier)
          ((effective_stack : ℚ) * 0.5)
    let total_potential := (total_pot : ℚ) + potential_future_win
    let direct_equity_needed :=
      (amount_to_call : ℚ) / ((total_pot : ℚ) + (amount_to_call : ℚ))
    let implied_equity_needed :=
      if total_potential > (amount_to_call : ℚ) then
        (amount_to_call : ℚ) / total_potential
      else direct_equity_needed
    { direct_equity_needed := some direct_equity_needed
      implied_equity_needed := some implied_equity_needed
      potential_future_win := some potential_future_win
      total_equity := none
      should_call := if draw_equity > implied_equity_needed * 0.9 then true else false }

/-- `SPRStrategy.calculate_spr`; `none` embeds the `float('inf')` returned
when `pot <= 0`. -/
def calculate_spr (effective_stack pot : ℤ) : Option ℚ :=
  if pot ≤ 0 then none
  else some ((effective_stack : ℚ) / (pot : ℚ))

/-- Comparison `spr > c` on the embedded SPR value; infinity (`none`) exceeds
every cutoff, matching Python float comparisons with `inf`. -/
def spr_gt (spr : Option ℚ) (c : ℚ) : Bool :=
  match spr with
  | none => true
  | some q => if c < q then true else false

/-- The strategy-guidance dict returned by `SPRStrategy.get_strategy_by_spr`.
The two deep-stack branches of the source omit the `push_fold` key; every
reader accesses it through `.get('push_fold', False)`, so the field is
modelled as `false` there. -/
structure SprGuidance where
  play_speculative : Bool
  set_mine : Bool
  commit_threshold : ℚ
  avoid_light_commit : Bool
  hand_requirement : ℚ
  push_fold : Bool
  deriving DecidableEq

/-- `SPRStrategy.get_strategy_by_spr`. -/
def get_strategy_by_spr (spr : Option ℚ) (hand_strength draw_equity : ℚ) :
    SprGuidance :=
  if spr_gt spr 15 then
    { play_speculative := true
      set_mine := true
      commit_threshold := 0.75
      avoid_light_commit := true
      hand_requirement := 0.55
      push_fold := false }
  else if spr_gt spr 7 then
    { play_speculative := if draw_equity > 0.25 then true else false
      set_mine := true
      commit_threshold := 0.65
      avoid_light_commit := false
      hand_requirement := 0.50
      push_fold := false }
  else if spr_gt spr 3 then
    { play_speculative := false
      set_mine := false
      commit_threshold := 0.55
      avoid_light_commit := false
      hand_requirement := 0.48
      push_fold := false }
  else
    { play_speculative := false
      set_mine := false
      commit_threshold := 0.45
      avoid_light_commit := false
      hand_requirement := 0.42
      push_fold := true }

/-- `SharkAI.TIER3_THRESHOLD`. -/
def TIER3_THRESHOLD : ℚ := 0.60

/-- The local position-multiplier table of `SharkAI._preflop_decision`
(line 477) with its `.get(position, 1.0)` default; distinct from
`POSITION_MULTIPLIERS`. -/
def preflop_position_multiplier (position : String) : ℚ :=
  if position = "EP" then 1.0
  else if position = "MP" then 0.98
  else if position = "CO" then 0.95
  else if position = "BTN" then 0.93
  else if position = "SB" then 0.98
  else if position = "BB" then 0.95
  else 1.0

/-- The adjusted entry threshold computed inside `_preflop_decision`:
`tier_threshold * position_multipliers.get(position, 1.0)`. -/
def preflop_adjusted_threshold (base : ℚ) (position : String) : ℚ :=
  base * preflop_position_multiplier position

/-- `SharkAI._preflop_decision`.  `available_names` is the lowercased list of
legal action names supplied by the betting authority. -/
def preflop_decision (available_names : List String) (amount_to_call : ℤ)
    (hand_strength : ℚ) (position : String) : Action × ℤ :=
  let adjusted_threshold := preflop_adjusted_threshold TIER3_THRESHOLD position
  if hand_strength < adjusted_threshold then
    if amount_to_call ≤ 0 ∧ "check" ∈ available_names then (Action.check, 0)
    else (Action.fold, 0)
  else if hand_strength ≥ 0.80 then
    if "raise" ∈ available_names then (Action.raise, max 40 (amount_to_call + 30))
    else if "bet" ∈ available_names then (Action.bet, 40)
    else (Action.fold, 0)
  else if hand_strength ≥ 0.70 then
    if position = "EP" ∨ position = "MP" then
      if amount_to_call > 0 ∧ "call" ∈ available_names then (Action.call, 0)
      else if "check" ∈ available_names then (Action.check, 0)
      else if "raise" ∈ available_names then (Action.raise, 40)
      else (Action.fold, 0)
    else
      if "raise" ∈ available_names then (Action.raise, 40)
      else if "call" ∈ available_names then (Action.call, 0)
      else (Action.fold, 0)
  else
    if (position = "CO" ∨ position = "BTN" ∨ position = "SB") ∧
        "raise" ∈ available_names ∧ amount_to_call ≤ 20 then (Action.raise, 40)
    else if (position = "CO" ∨ position = "BTN" ∨ position = "SB") ∧
        "call" ∈ available_names ∧ amount_to_call ≤ 20 then (Action.call, 0)
    else if amount_to_call ≤ 0 ∧ "check" ∈ available_names then (Action.check, 0)
    else (Action.fold, 0)

/-- `SharkAI._calculate_postflop_weights`, as the ordered association list
underlying the Python dict (insertion order fold, check, call, bet, raise,
all_in is preserved by `dict.update`). -/
def calculate_postflop_weights (hand_strength draw_equity : ℚ)
    (config : StrategyConfig) : List (String × ℚ) :=
  let total_equity := hand_strength * 0.7 + draw_equity * 0.3
  let bluff_freq := config.bluff_freq
  if total_equity > 0.80 then
    [("fold", 0), ("check", 0), ("call", 0.15), ("bet", 0.35),
     ("raise", 0.50), ("all_in", 0)]
  else if total_equity > 0.60 then
    [("fold", 0), ("check", 0.05), ("call", 0.25), ("bet", 0.45),
     ("raise", 0.25), ("all_in", 0)]
  else if total_equity > 0.45 then
    [("fold", 0.10), ("check", 0.30), ("call", 0.45), ("bet", 0.15),
     ("raise", 0), ("all_in", 0)]
  else if total_equity > 0.30 ∨ draw_equity > 0.15 then
    [("fold", 0.25), ("check", 0.30), ("call", 0.35),
     ("bet", 0.08 * bluff_freq * 10), ("raise", 0), ("all_in", 0)]
  else
    [("fold", 0.55), ("check", 0.35), ("call", 0.08),
     ("bet", 0.02 * bluff_freq * 10), ("raise", 0), ("all_in", 0)]

/-- Loop of `SharkAI._weighted_choice`: scan the cumulative weights and return
the first action whose cumulative weight reaches the draw; falling off the end
returns the last key, mirroring `list(weights.keys())[-1]`. -/
def weighted_choice_loop (l : List (String × ℚ)) (r cumulative : ℚ)
    (last_key : String) : String :=
  match l with
  | [] => last_key
  | (a, w) :: rest =>
    if r ≤ cumulative + w then a
    else weighted_choice_loop rest r (cumulative + w) a

/-- `SharkAI._weighted_choice`, with the uniform draw `random.random()`
passed in as `r` (so `r * total` plays the role of the scaled draw). -/
def weighted_choice (weights : List (String × ℚ)) (r : ℚ) : String :=
  let total := (weights.map Prod.snd).sum
  if total = 0 then "fold"
  else weighted_choice_loop weights (r * total) 0 "fold"

/-- The `action_map` dict of `_postflop_decision` with its
`.get(action_name, Action.FOLD)` default. -/
def action_map (name : String) : Action :=
  if name = "fold" then Action.fold
  else if name = "check" then Action.check
  else if name = "call" then Action.call
  else if name = "bet" then Action.bet
  else if name = "raise" then Action.raise
  else if name = "all_in" then Action.allin
  else Action.fold

/-- `SharkAI._calculate_amount`.  Takes the chosen action by its lowercase
name: the source compares the `Action` value against name strings
(`action in ['fold', 'check', 'call']`), which the spec's §3/§4.6 contract
(actions compare equal to their lowercase names) makes equivalent.  Python
`int()` truncation of the non-negative pot fractions is `Int.floor`. -/
def calculate_amount (action_name : String) (chips : ℤ)
    (amount_to_call current_bet : ℤ) (hand_strength draw_equity : ℚ)
    (total_pot : ℤ) : ℤ :=
  if action_name = "fold" ∨ action_name = "check" ∨ action_name = "call" then 0
  else if action_name = "all_in" then chips
  else
    let pot : ℤ := if total_pot ≤ 0 then 100 else total_pot
    let big_blind : ℤ := 20
    let total_strength := hand_strength + draw_equity * 0.5
    if current_bet = 0 then
      let bet_size : ℤ :=
        if total_strength > 0.80 then ⌊(pot : ℚ) * 0.75⌋
        else if total_strength > 0.60 then ⌊(pot : ℚ) * 0.66⌋
        else if draw_equity > 0.25 then ⌊(pot : ℚ) * 0.60⌋
        else if total_strength > 0.45 then ⌊(pot : ℚ) * 0.33⌋
        else ⌊(pot : ℚ) * 0.25⌋
      max (big_blind * 2) bet_size
    else
      let target_total : ℤ :=
        if total_strength > 0.80 then ⌊(pot : ℚ) * 0.75⌋
        else if total_strength > 0.60 then ⌊(pot : ℚ) * 0.66⌋
        else if draw_equity > 0.25 then ⌊(pot : ℚ) * 0.60⌋
        else if total_strength > 0.45 then ⌊(pot : ℚ) * 0.50⌋
        else current_bet + big_blind * 2
      let raise_amount := max 0 (target_total - current_bet)
      max (big_blind * 2) raise_amount

/-- The filtered weighted action set of `_postflop_decision`: weights
intersected with the legal-action names, zero weights dropped, and `fold`
removed whenever `check` is legal. -/
def postflop_valid (available_names : List String)
    (hand_strength draw_equity : ℚ) (config : StrategyConfig) :
    List (String × ℚ) :=
  let action_weights := calculate_postflop_weights hand_strength draw_equity config
  let valid := action_weights.filter
    (fun p => decide (p.1 ∈ available_names) && decide (0 < p.2))
  if "check" ∈ available_names then
    valid.filter (fun p => decide (p.1 ≠ "fold"))
  else valid

/-- `SharkAI._postflop_decision`.  `total_equity` is the combined equity
`win_probability + draw_equity * 0.5` computed by `get_action`;
`should_call` is the `should_call` field of the implied-odds result;
`r` is the uniform random draw consumed by the weighted sampling step. -/
def postflop_decision (chips : ℤ) (available_names : List String)
    (amount_to_call current_bet : ℤ)
    (hand_strength draw_equity total_equity : ℚ) (should_call : Bool)
    (spr_guidance : SprGuidance) (config : StrategyConfig)
    (total_pot : ℤ) (r : ℚ) : Action × ℤ :=
  if spr_guidance.push_fold then
    if total_equity ≥ spr_guidance.commit_threshold then (Action.allin, chips)
    else (Action.fold, 0)
  else if draw_equity > 0.15 ∧ should_call = true ∧ "call" ∈ available_names then
    (Action.call, 0)
  else if draw_equity > 0.15 ∧ draw_equity > 0.30 ∧
      "raise" ∈ available_names ∧ hand_strength < 0.5 then
    (Action.raise, max 40 (current_bet + 20))
  else
    let valid := postflop_valid available_names hand_strength draw_equity config
    if valid = [] then (Action.fold, 0)
    else
      let action_name := weighted_choice valid r
      let action := action_map action_name
      (action, calculate_amount action_name chips amount_to_call current_bet
        hand_strength draw_equity total_pot)

/-- One per-opponent record of `SharkAI.opponent_data`
(`initialize_opponents` fixes the key set; tendencies start at 0.5). -/
structure OpponentRecord where
  hands_observed : ℕ
  folds : ℕ
  calls : ℕ
  raises : ℕ
  bluffs_detected : ℕ
  bluff_opportunities : ℕ
  fold_to_cbet : ℕ
  cbet_opportunities : ℕ
  showdown_wins : ℕ
  showdowns : ℕ
  fold_tendency : ℚ
  bluff_tendency : ℚ
  calling_tendency : ℚ
  deriving DecidableEq

/-- Fresh opponent record created by `initialize_opponents`. -/
def init_record : OpponentRecord :=
  ⟨0, 0, 0, 0, 0, 0, 0, 0, 0, 0, 0.5, 0.5, 0.5⟩

/-- The mutable opponent-model state of a `SharkAI` instance: the tracked
records (as an association list in registration order), the activation flag,
the instance-level `hands_observed` counter and the current strategy
configuration. -/
structure SharkState where
  opponent_data : List (String × OpponentRecord)
  adaptation_active : Bool
  hands_observed : ℕ
  current_config : StrategyConfig
  deriving DecidableEq

/-- A player as seen by `initialize_opponents` (name plus the attributes the
registration filter reads). -/
structure Player where
  name : String
  is_ai : Bool
  ai_style : String
  deriving DecidableEq

/-- `SharkAI.initialize_opponents`: tracks every player that is not itself a
shark AI, clears activation and resets the current config to baseline. -/
def initialize_opponents (players : List Player) : SharkState :=
  { opponent_data :=
      (players.filter (fun p => !p.is_ai || decide (p.ai_style ≠ "SHARK"))).map
        (fun p => (p.name, init_record))
    adaptation_active := false
    hands_observed := 0
    current_config := base_config }

/-- Membership test `player_name in self.opponent_data`. -/
def has_opponent (data : List (String × OpponentRecord)) (n : String) : Bool :=
  match data with
  | [] => false
  | p :: rest => if p.1 = n then true else has_opponent rest n

/-- Dict read `self.opponent_data[name]` (total, with a default that is never
hit on the guarded call paths). -/
def get_record (data : List (String × OpponentRecord)) (n : String) :
    OpponentRecord :=
  match data with
  | [] => init_record
  | p :: rest => if p.1 = n then p.2 else get_record rest n

/-- In-place mutation of one record of the dict, as an association-list map. -/
def set_record (data : List (String × OpponentRecord)) (n : String)
    (f : OpponentRecord → OpponentRecord) : List (String × OpponentRecord) :=
  data.map (fun p => if p.1 = n then (p.1, f p.2) else p)

/-- `SharkAI._calculate_tendencies` on a single record (the method mutates
`self.opponent_data[player_name]`): a no-op under 3 observed hands, otherwise
the clamped fold/bluff/calling tendency updates. -/
def calculate_tendencies (d : OpponentRecord) : OpponentRecord :=
  if d.hands_observed < 3 then d
  else
    let hands : ℚ := (d.hands_observed : ℚ)
    let ft := min 1 (max 0 ((d.folds : ℚ) / hands * 2))
    let bt := min 1 ((d.bluffs_detected : ℚ) / (d.raises : ℚ) * 3)
    let ct := min 1 (max 0 ((d.calls : ℚ) / (hands - (d.folds : ℚ))))
    let d1 := { d with fold_tendency := ft }
    let d2 := if 0 < d.raises then { d1 with bluff_tendency := bt } else d1
    if d.folds < d.hands_observed then { d2 with calling_tendency := ct }
    else d2

/-- The three aggregate tendency averages formed at the top of
`SharkAI._update_strategy`. -/
def avg_tendencies (data : List (String × OpponentRecord)) : ℚ × ℚ × ℚ :=
  (((data.map (fun p => p.2.fold_tendency)).sum) / (data.length : ℚ),
   ((data.map (fun p => p.2.bluff_tendency)).sum) / (data.length : ℚ),
   ((data.map (fun p => p.2.calling_tendency)).sum) / (data.length : ℚ))

/-- `SharkAI._update_strategy`: starting from the current config, each of the
three triggered adjustments rewrites its own fields from `base_config`; if no
adjustment triggers, the whole config is reset to `base_config`. -/
def update_strategy (cur : StrategyConfig)
    (data : List (String × OpponentRecord)) : StrategyConfig :=
  if data = [] then cur
  else
    let avg_fold := (avg_tendencies data).1
    let avg_bluff := (avg_tendencies data).2.1
    let avg_call := (avg_tendencies data).2.2
    let c1 :=
      if avg_fold > 0.6 then
        { cur with
          bluff_freq := min 0.5 (base_config.bluff_freq + 0.15)
          bet_postflop := min 0.7 (base_config.bet_postflop + 0.15)
          af_factor := base_config.af_factor + 0.5 }
      else cur
    let c2 :=
      if avg_bluff > 0.4 then
        { c1 with
          vpip_range := (max 15 (base_config.vpip_range.1 - 5),
                         max 20 (base_config.vpip_range.2 - 5))
          call_preflop := min 0.4 (base_config.call_preflop + 0.1)
          fold_to_raise := max 0.3 (base_config.fold_to_raise - 0.1) }
      else c1
    let c3 :=
      if avg_call > 0.5 then
        { c2 with
          bluff_freq := max 0.1 (base_config.bluff_freq - 0.1)
          bet_postflop := base_config.bet_postflop + 0.1
          af_factor := base_config.af_factor + 0.3 }
      else c2
    if avg_fold > 0.6 ∨ avg_bluff > 0.4 ∨ avg_call > 0.5 then c3
    else base_config

/-- The per-record counter bumps at the top of `SharkAI.update_after_action`
(hands observed, fold/call/raise-or-bet split, bluff and continuation-bet
counters). -/
def observe_record (action : String) (is_bluff facing_cbet : Bool)
    (d : OpponentRecord) : OpponentRecord :=
  let d0 := { d with hands_observed := d.hands_observed + 1 }
  let d1 :=
    if action = "fold" then
      { d0 with
        folds := d0.folds + 1
        fold_to_cbet := if facing_cbet then d0.fold_to_cbet + 1
                        else d0.fold_to_cbet }
    else if action = "call" then { d0 with calls := d0.calls + 1 }
    else if action = "raise" ∨ action = "bet" then
      { d0 with
        raises := d0.raises + 1
        bluffs_detected := if is_bluff then d0.bluffs_detected + 1
                           else d0.bluffs_detected }
    else d0
  if facing_cbet then
    { d1 with cbet_opportunities := d1.cbet_opportunities + 1 }
  else d1

/-- The activation check of `update_after_action`: once active stays active,
otherwise activates when the total observed hands over the (already bumped)
records reaches `base_config['adaptation_start']`. -/
def observe_active (s : SharkState)
    (data1 : List (String × OpponentRecord)) : Bool :=
  if s.adaptation_active then true
  else if base_config.adaptation_start ≤
      (data1.map (fun p => p.2.hands_observed)).sum then true
  else false

/-- Body of `SharkAI.update_after_action` after the registration guard:
bump the acting opponent's counters, check activation, and — every 5th hand
of that opponent or always once active — recompute that opponent's
tendencies, then (only while active) the shared current config. -/
def update_core (s : SharkState) (player_name action : String)
    (is_bluff facing_cbet : Bool) : SharkState :=
  let data1 := set_record s.opponent_data player_name
    (observe_record action is_bluff facing_cbet)
  let active1 := observe_active s data1
  if (get_record data1 player_name).hands_observed % 5 = 0 ∨
      active1 = true then
    let data2 := set_record data1 player_name calculate_tendencies
    let config2 :=
      if active1 = true then update_strategy s.current_config data2
      else s.current_config
    { opponent_data := data2
      adaptation_active := active1
      hands_observed := s.hands_observed + 1
      current_config := config2 }
  else
    { opponent_data := data1
      adaptation_active := active1
      hands_observed := s.hands_observed + 1
      current_config := s.current_config }

/-- `SharkAI.update_after_action` (one `observe` call): a no-op for an
unregistered name, otherwise `update_core`. -/
def update_after_action (s : SharkState) (player_name action street : String)
    (is_bluff facing_cbet : Bool) : SharkState :=
  if has_opponent s.opponent_data player_name = false then s
  else update_core s player_name action is_bluff facing_cbet

/-- Total observed hands across all tracked opponents, as summed by the
activation check in `update_after_action`. -/
def total_hands_observed (s : SharkState) : ℕ :=
  (s.opponent_data.map (fun p => p.2.hands_observed)).sum

/-- One argument tuple of an `update_after_action` call. -/
structure Observation where
  player_name : String
  action : String
  street : String
  is_bluff : Bool
  facing_cbet : Bool
  deriving DecidableEq

/-- A sequence of `update_after_action` calls applied in order. -/
def apply_observations (s : SharkState) (l : List Observation) : SharkState :=
  l.foldl (fun s o =>
    update_after_action s o.player_name o.action o.street o.is_bluff
      o.facing_cbet) s

/-- `SharkAI.get_opponent_summary`. -/
def get_opponent_summary (s : SharkState) : String :=
  if s.adaptation_active = false then "[鲨鱼AI] 观察中..."
  else
    let summaries :=
      (s.opponent_data.filter (fun p => decide (5 ≤ p.2.hands_observed))).map
        (fun p =>
          let fold_desc :=
            if p.2.fold_tendency > 0.6 then "易弃牌"
            else if p.2.fold_tendency < 0.4 then "难弃牌"
            else "中等"
          let bluff_desc :=
            if p.2.bluff_tendency > 0.4 then "爱诈唬"
            else if p.2.bluff_tendency < 0.2 then "诚实"
            else "平衡"
          p.1 ++ "(" ++ fold_desc ++ "/" ++ bluff_desc ++ ")")
    if summaries ≠ [] then
      "[鲨鱼AI] 分析: " ++ String.intercalate ", " summaries
    else "[鲨鱼AI] 学习中..."

/-- The opening-bet sizing model as the spec words it (§4.6 sizing /
claim C4): `max(2×bigBlind, pot × fraction)` with the fraction chosen by
combined-strength band, the amount being an integer (`Int.floor`). -/
def claim_bet_size (hand_strength draw_equity : ℚ) (total_pot : ℤ) : ℤ :=
  let ts := hand_strength + draw_equity * 0.5
  let frac : ℚ :=
    if ts > 0.80 then 0.75
    else if ts > 0.60 then 0.66
    else if draw_equity > 0.25 then 0.60
    else if ts > 0.45 then 0.33
    else 0.25
  max 40 ⌊(total_pot : ℚ) * frac⌋

/-- The raise-sizing model as claim C4 words it: the target total bet uses
the SAME fraction table as the opening bet (weakest band:
`currentBet + 2×bigBlind`), and the increment is
`max(2×bigBlind, target − currentBet)`. -/
def claim_raise_increment (hand_strength draw_equity : ℚ)
    (total_pot current_bet : ℤ) : ℤ :=
  let ts := hand_strength + draw_equity * 0.5
  let target : ℤ :=
    if ts > 0.80 then ⌊(total_pot : ℚ) * 0.75⌋
    else if ts > 0.60 then ⌊(total_pot : ℚ) * 0.66⌋
    else if draw_equity > 0.25 then ⌊(total_pot : ℚ) * 0.60⌋
    else if ts > 0.45 then ⌊(total_pot : ℚ) * 0.33⌋
    else current_bet + 40
  max 40 (target - current_bet)

/-- The raise-sizing model amended to what the source actually does: the
`> 0.45` band targets `0.50 × pot` (not the opening table's `0.33`). -/
def amended_raise_increment (hand_strength draw_equity : ℚ)
    (total_pot current_bet : ℤ) : ℤ :=
  let ts := hand_strength + draw_equity * 0.5
  let target : ℤ :=
    if ts > 0.80 then ⌊(total_pot : ℚ) * 0.75⌋
    else if ts > 0.60 then ⌊(total_pot : ℚ) * 0.66⌋
    else if draw_equity > 0.25 then ⌊(total_pot : ℚ) * 0.60⌋
    else if ts > 0.45 then ⌊(total_pot : ℚ) * 0.50⌋
    else current_bet + 40
  max 40 (target - current_bet)

/-- A single registered (non-shark) opponent used by the concrete
adaptation-history runs. -/
def players_one : List Player := [⟨"P", false, "LAG"⟩]

/-- History A: 9 folds followed by 21 bluffed raises by opponent P. -/
def obs_hist_A : List Observation :=
  List.replicate 9 ⟨"P", "fold", "flop", false, false⟩ ++
    List.replicate 21 ⟨"P", "raise", "flop", true, false⟩

/-- History B: 6 folds followed by 14 bluffed raises by opponent P. -/
def obs_hist_B : List Observation :=
  List.replicate 6 ⟨"P", "fold", "flop", false, false⟩ ++
    List.replicate 14 ⟨"P", "raise", "flop", true, false⟩

/-- The model state after registering P and observing history A. -/
def state_A : SharkState :=
  apply_observations (initialize_opponents players_one) obs_hist_A

/-- The model state after registering P and observing history B. -/
def state_B : SharkState :=
  apply_observations (initialize_opponents players_one) obs_hist_B

/-- A record whose tendencies trigger no adaptation rule. -/
def record_no_trigger : OpponentRecord :=
  { init_record with fold_tendency := 0.5, bluff_tendency := 0.2, calling_tendency := 0.3 }

/- ### Helper lemmas -/

theorem foldl_max_init_le (l : List (String × DrawFinding)) (a : ℚ) :
    a ≤ l.foldl (fun acc p => max acc p.2.equity) a := by
  induction l generalizing a with
  | nil => exact le_refl a
  | cons p rest ih =>
    exact le_trans (le_max_left a p.2.equity) (ih (max a p.2.equity))

theorem foldl_max_mem (l : List (String × DrawFinding)) (a : ℚ) :
    l.foldl (fun acc p => max acc p.2.equity) a ∈
      a :: l.map (fun p => p.2.equity) := by
  induction l generalizing a with
  | nil => simp [List.foldl]
  | cons p rest ih =>
    simp only [List.foldl_cons, List.map_cons]
    have h := ih (max a p.2.equity)
    rcases List.mem_cons.mp h with h1 | h2
    · rw [h1]
      rcases max_choice a p.2.equity with hm | hm <;> rw [hm]
      · exact List.mem_cons_self _ _
      · exact List.mem_cons_of_mem _ (List.mem_cons_self _ _)
    · exact List.mem_cons_of_mem _ (List.mem_cons_of_mem _ h2)

theorem foldl_max_mem_le (l : List (String × DrawFinding)) (a : ℚ) :
    ∀ p ∈ l, p.2.equity ≤ l.foldl (fun acc p => max acc p.2.equity) a := by
  induction l generalizing a with
  | nil => intro p hp; cases hp
  | cons q rest ih =>
    intro p hp
    rcases List.mem_cons.mp hp with h1 | h2
    · subst h1
      exact le_trans (le_max_right a p.2.equity)
        (foldl_max_init_le rest (max a p.2.equity))
    · exact ih (max a q.2.equity) p h2

theorem spr_gt_some (q c : ℚ) : spr_gt (some q) c = true ↔ c < q := by
  simp only [spr_gt]
  split_ifs with h
  · simpa using h
  · simpa using h

/-- The push-or-fold flag is set exactly in the `SPR ≤ 3` regime. -/
theorem push_fold_iff (spr : Option ℚ) (hs de : ℚ) :
    (get_strategy_by_spr spr hs de).push_fold = true ↔
      ∃ q, spr = some q ∧ q ≤ 3 := by
  cases spr with
  | none => simp [get_strategy_by_spr, spr_gt]
  | some q =>
    simp only [get_strategy_by_spr]
    split_ifs with h1 h2 h3
    · rw [spr_gt_some] at h1
      refine iff_of_false (by simp) ?_
      rintro ⟨q2, hq, hle⟩
      rw [← Option.some.inj hq] at hle
      linarith
    · rw [spr_gt_some] at h2
      refine iff_of_false (by simp) ?_
      rintro ⟨q2, hq, hle⟩
      rw [← Option.some.inj hq] at hle
      linarith
    · rw [spr_gt_some] at h3
      refine iff_of_false (by simp) ?_
      rintro ⟨q2, hq, hle⟩
      rw [← Option.some.inj hq] at hle
      linarith
    · rw [spr_gt_some] at h3
      refine iff_of_true rfl ⟨q, rfl, by linarith⟩

theorem weighted_choice_loop_mem (l : List (String × ℚ)) (r c : ℚ)
    (k : String) (hne : l ≠ []) :
    weighted_choice_loop l r c k ∈ l.map Prod.fst := by
  induction l generalizing c k with
  | nil => exact absurd rfl hne
  | cons p rest ih =>
    rcases p with ⟨a, w⟩
    simp only [weighted_choice_loop, List.map_cons]
    split_ifs with h
    · exact List.mem_cons_self _ _
    · rcases Decidable.em (rest = []) with hr | hr
      · subst hr
        simp [weighted_choice_loop]
      · exact List.mem_cons_of_mem _ (ih (c + w) a hr)

theorem list_sum_nonneg_of_pos (l : List (String × ℚ))
    (hpos : ∀ p ∈ l, 0 < p.2) : 0 ≤ (l.map Prod.snd).sum := by
  induction l with
  | nil => simp
  | cons p rest ih =>
    simp only [List.map_cons, List.sum_cons]
    have h1 : 0 < p.2 := hpos p (List.mem_cons_self _ _)
    have h2 : 0 ≤ (rest.map Prod.snd).sum :=
      ih (fun q hq => hpos q (List.mem_cons_of_mem _ hq))
    linarith

theorem list_sum_pos_of_pos (l : List (String × ℚ)) (hne : l ≠ [])
    (hpos : ∀ p ∈ l, 0 < p.2) : 0 < (l.map Prod.snd).sum := by
  cases l with
  | nil => exact absurd rfl hne
  | cons p rest =>
    simp only [List.map_cons, List.sum_cons]
    have h1 : 0 < p.2 := hpos p (List.mem_cons_self _ _)
    have h2 : 0 ≤ (rest.map Prod.snd).sum :=
      list_sum_nonneg_of_pos rest (fun q hq => hpos q (List.mem_cons_of_mem _ hq))
    linarith

theorem weighted_choice_mem (l : List (String × ℚ)) (r : ℚ) (hne : l ≠ [])
    (hpos : ∀ p ∈ l, 0 < p.2) :
    weighted_choice l r ∈ l.map Prod.fst := by
  have hsum := list_sum_pos_of_pos l hne hpos
  simp only [weighted_choice]
  rw [if_neg hsum.ne']
  exact weighted_choice_loop_mem l (r * (l.map Prod.snd).sum) 0 "fold" hne

theorem weights_keys (hs de : ℚ) (cfg : StrategyConfig) :
    (calculate_postflop_weights hs de cfg).map Prod.fst =
      ["fold", "check", "call", "bet", "raise", "all_in"] := by
  simp only [calculate_postflop_weights]
  split_ifs <;> rfl

theorem allin_weight_zero (hs de : ℚ) (cfg : StrategyConfig)
    (p : String × ℚ) (hp : p ∈ calculate_postflop_weights hs de cfg)
    (hname : p.1 = "all_in") : p.2 = 0 := by
  rcases p with ⟨n, w⟩
  simp only at hname
  subst hname
  simp only [calculate_postflop_weights] at hp
  split_ifs at hp <;> simp_all

theorem postflop_valid_mem_weights (avail : List String) (hs de : ℚ)
    (cfg : StrategyConfig) (p : String × ℚ)
    (hp : p ∈ postflop_valid avail hs de cfg) :
    p ∈ calculate_postflop_weights hs de cfg := by
  simp only [postflop_valid] at hp
  split_ifs at hp
  · exact List.mem_of_mem_filter (List.mem_of_mem_filter hp)
  · exact List.mem_of_mem_filter hp

theorem postflop_valid_pos (avail : List String) (hs de : ℚ)
    (cfg : StrategyConfig) (p : String × ℚ)
    (hp : p ∈ postflop_valid avail hs de cfg) : 0 < p.2 := by
  simp only [postflop_valid] at hp
  split_ifs at hp
  · have h1 := List.of_mem_filter (List.mem_of_mem_filter hp)
    simp only [Bool.and_eq_true, decide_eq_true_eq] at h1
    exact h1.2
  · have h1 := List.of_mem_filter hp
    simp only [Bool.and_eq_true, decide_eq_true_eq] at h1
    exact h1.2

theorem postflop_valid_no_fold (avail : List String) (hs de : ℚ)
    (cfg : StrategyConfig) (hcheck : "check" ∈ avail) :
    "fold" ∉ (postflop_valid avail hs de cfg).map Prod.fst := by
  intro hmem
  rcases List.mem_map.mp hmem with ⟨p, hp, hname⟩
  simp only [postflop_valid, if_pos hcheck] at hp
  have h1 := List.of_mem_filter hp
  rw [decide_eq_true_eq] at h1
  exact h1 hname

theorem action_map_ne_fold (n : String)
    (hn : n ∈ ["check", "call", "bet", "raise", "all_in"]) :
    action_map n ≠ Action.fold := by
  fin_cases hn <;> simp [action_map]

theorem action_map_eq_allin (n : String) (h : action_map n = Action.allin) :
    n = "all_in" := by
  simp only [action_map] at h
  split_ifs at h <;> simp_all

/- ### Claim C9 -/

/-- C9: for every (possibly empty) draw-finding map, `calculate_total_equity`
is 0 on the empty map, equals the maximum single finding's equity (it is one
of the equities and an upper bound of all of them — never a sum), and is
non-negative whenever the findings' equities are. -/
theorem C9_total_equity_is_max (draws : List (String × DrawFinding)) :
    (draws = [] → calculate_total_equity draws = 0) ∧
    (draws ≠ [] →
      calculate_total_equity draws ∈ draws.map (fun p => p.2.equity) ∧
      ∀ p ∈ draws, p.2.equity ≤ calculate_total_equity draws) ∧
    ((∀ p ∈ draws, 0 ≤ p.2.equity) → 0 ≤ calculate_total_equity draws) := by
  refine ⟨?_, ?_, ?_⟩
  · intro h; subst h; rfl
  · intro hne
    cases draws with
    | nil => exact absurd rfl hne
    | cons d rest =>
      constructor
      · simpa [calculate_total_equity] using foldl_max_mem rest d.2.equity
      · intro p hp
        rcases List.mem_cons.mp hp with h1 | h2
        · subst h1
          simpa [calculate_total_equity] using foldl_max_init_le rest p.2.equity
        · simpa [calculate_total_equity] using foldl_max_mem_le rest d.2.equity p h2
  · intro hnn
    cases draws with
    | nil => simp [calculate_total_equity]
    | cons d rest =>
      have h1 : 0 ≤ d.2.equity := hnn d (List.mem_cons_self _ _)
      have h2 := foldl_max_init_le rest d.2.equity
      simpa [calculate_total_equity] using le_trans h1 h2

/-- Witness for C9 at a concrete findings map (flush draw + gutshot + combo
draw): the total equity is one of, and bounds, the finding equities. -/
theorem C9_total_equity_is_max_witness :
    (calculate_total_equity
        [("flush_draw", ⟨9, 0.35⟩), ("gutshot", ⟨4, 0.16⟩),
         ("combo_draw", ⟨12, 0.45⟩)] ∈
      [("flush_draw", (⟨9, 0.35⟩ : DrawFinding)), ("gutshot", ⟨4, 0.16⟩),
         ("combo_draw", ⟨12, 0.45⟩)].map (fun p => p.2.equity)) ∧
    (0 : ℚ) ≤ calculate_total_equity
        [("flush_draw", ⟨9, 0.35⟩), ("gutshot", ⟨4, 0.16⟩),
         ("combo_draw", ⟨12, 0.45⟩)] :=
  ⟨((C9_total_equity_is_max _).2.1 (by simp)).1,
   (C9_total_equity_is_max _).2.2 (by
      intro p hp
      simp only [List.mem_cons, List.not_mem_nil, or_false] at hp
      rcases hp with h | h | h <;> subst h <;> norm_num)⟩

/- ### Claim C8 -/

/-- C8 counterexample: under the fixed multiplier table of §3
(`POSITION_MULTIPLIERS`, the table `get_adjusted_threshold` uses), BTN's
adjusted threshold is strictly HIGHER than EP's at the engine's own base
threshold 0.60 — not strictly lower as claimed. -/
theorem C8_counterexample :
    get_adjusted_threshold 0.60 "EP" < get_adjusted_threshold 0.60 "BTN" ∧
    get_adjusted_threshold 0.60 "EP" = 0.42 ∧
    get_adjusted_threshold 0.60 "BTN" = 0.75 := by
  norm_num +decide [get_adjusted_threshold, POSITION_MULTIPLIERS]

/-- C8 (amended): the pre-community decision path adjusts its entry threshold
with its own local multiplier table (`preflop_position_multiplier`, EP 1.0 /
BTN 0.93), under which BTN's adjusted threshold IS strictly lower than EP's
for every positive base; under `POSITION_MULTIPLIERS` (EP 0.70 / BTN 1.25,
used by the never-called `get_adjusted_threshold`) the comparison is
reversed. -/
theorem C8_button_threshold (base : ℚ) (hbase : 0 < base) :
    preflop_adjusted_threshold base "BTN" < preflop_adjusted_threshold base "EP" ∧
    get_adjusted_threshold base "EP" < get_adjusted_threshold base "BTN" := by
  constructor
  · simp only [preflop_adjusted_threshold, preflop_position_multiplier]
    norm_num +decide
    linarith
  · simp only [get_adjusted_threshold, POSITION_MULTIPLIERS]
    norm_num +decide
    linarith

/-- Witness for C8 at base 0.60. -/
theorem C8_button_threshold_witness :
    preflop_adjusted_threshold 0.60 "BTN" < preflop_adjusted_threshold 0.60 "EP" ∧
    get_adjusted_threshold 0.60 "EP" < get_adjusted_threshold 0.60 "BTN" :=
  C8_button_threshold 0.60 (by norm_num)

/- ### Claim C7 -/

/-- C7 counterexample: for the fixed stack 0, `calculate_spr` is NOT strictly
decreasing in the pot — two different positive pots give the same SPR. -/
theorem C7_counterexample :
    calculate_spr 0 1 = calculate_spr 0 2 ∧ (0 : ℤ) < 1 ∧ (1 : ℤ) < 2 := by
  norm_num [calculate_spr]

/-- C7 (amended): `calculate_spr` is `+inf` (`none`) for pot ≤ 0 and strictly
decreasing in the pot for every fixed POSITIVE stack (for stack 0 it is
constant); the regime boundaries are as tabulated: spr = 15 falls in the
7–15 bucket with commit threshold 0.65 (not 0.75) and no push-fold, spr = 7
falls in the 3–7 bucket with commit threshold 0.55, and push-or-fold mode is
set exactly in the SPR ≤ 3 regime. -/
theorem C7_spr_monotone_and_regimes (stack p1 p2 : ℤ) (spr : Option ℚ)
    (hs de : ℚ) (hstack : 0 < stack) (hp1 : 0 < p1) (hp12 : p1 < p2) :
    (∀ p : ℤ, p ≤ 0 → calculate_spr stack p = none) ∧
    (∃ q1 q2, calculate_spr stack p1 = some q1 ∧
      calculate_spr stack p2 = some q2 ∧ q2 < q1) ∧
    (get_strategy_by_spr (some 15) hs de).commit_threshold = 0.65 ∧
    (get_strategy_by_spr (some 15) hs de).push_fold = false ∧
    (get_strategy_by_spr (some 7) hs de).commit_threshold = 0.55 ∧
    ((get_strategy_by_spr spr hs de).push_fold = true ↔
      ∃ q, spr = some q ∧ q ≤ 3) := by
  have hp2 : 0 < p2 := lt_trans hp1 hp12
  refine ⟨?_, ?_, ?_, ?_, ?_, push_fold_iff spr hs de⟩
  · intro p hp; simp [calculate_spr, hp]
  · refine ⟨(stack : ℚ) / (p1 : ℚ), (stack : ℚ) / (p2 : ℚ), ?_, ?_, ?_⟩
    · simp [calculate_spr, not_le.mpr hp1]
    · simp [calculate_spr, not_le.mpr hp2]
    · have hs0 : (0 : ℚ) < (stack : ℚ) := by exact_mod_cast hstack
      have h1 : (0 : ℚ) < (p1 : ℚ) := by exact_mod_cast hp1
      have h12 : (p1 : ℚ) < (p2 : ℚ) := by exact_mod_cast hp12
      exact div_lt_div_of_pos_left hs0 h1 h12
  · norm_num [get_strategy_by_spr, spr_gt]
  · norm_num [get_strategy_by_spr, spr_gt]
  · norm_num [get_strategy_by_spr, spr_gt]

/-- Witness for C7 with stack 100, pots 1 < 2, spr probe 2. -/
theorem C7_spr_monotone_and_regimes_witness :
    (∃ q1 q2, calculate_spr 100 1 = some q1 ∧
      calculate_spr 100 2 = some q2 ∧ q2 < q1) ∧
    ((get_strategy_by_spr (some 2) 0 0).push_fold = true ↔
      ∃ q, (some (2 : ℚ)) = some q ∧ q ≤ 3) :=
  ⟨(C7_spr_monotone_and_regimes 100 1 2 (some 2) 0 0 (by norm_num)
      (by norm_num) (by norm_num)).2.1,
   (C7_spr_monotone_and_regimes 100 1 2 (some 2) 0 0 (by norm_num)
      (by norm_num) (by norm_num)).2.2.2.2.2⟩

/- ### Claim C5 -/

/-- C5 counterexample: for callCost ≤ 0 the result dict carries
`should_call = true` and `total_equity = 0.0`, but it does NOT contain
`direct_equity_needed` / `implied_equity_needed` keys at all (they are `none`,
not 0 as the claim asserts). -/
theorem C5_counterexample :
    (calculate_implied_odds 0 100 1000 "flop" 0.3).should_call = true ∧
    (calculate_implied_odds 0 100 1000 "flop" 0.3).direct_equity_needed = none ∧
    (calculate_implied_odds 0 100 1000 "flop" 0.3).implied_equity_needed = none ∧
    (calculate_implied_odds 0 100 1000 "flop" 0.3).total_equity = some 0 ∧
    (none : Option ℚ) ≠ some 0 := by
  refine ⟨?_, ?_, ?_, ?_, ?_⟩ <;> simp [calculate_implied_odds]

/-- C5 (amended): for callCost ≤ 0 `calculate_implied_odds` returns
`should_call = true` with a `total_equity` key equal to 0 and with the
`direct_equity_needed` / `implied_equity_needed` keys absent; for
callCost > 0 it returns `directNeeded = callCost/(pot+callCost)`,
`impliedNeeded = callCost/totalPotential` when `totalPotential > callCost`
and `directNeeded` otherwise (`totalPotential = pot + potentialFutureWin`),
and `shouldCall` holds exactly when `drawEquity > impliedNeeded × 0.9`. -/
theorem C5_implied_odds_contract (c pot stack : ℤ) (street : String) (de : ℚ) :
    (c ≤ 0 → calculate_implied_odds c pot stack street de =
      ⟨none, none, none, some 0, true⟩) ∧
    (0 < c →
      ∃ pfw dn inn,
        pfw = min ((stack : ℚ) * 0.3 * de * street_multiplier street)
          ((stack : ℚ) * 0.5) ∧
        dn = (c : ℚ) / ((pot : ℚ) + (c : ℚ)) ∧
        inn = (if (pot : ℚ) + pfw > (c : ℚ) then (c : ℚ) / ((pot : ℚ) + pfw)
          else dn) ∧
        calculate_implied_odds c pot stack street de =
          ⟨some dn, some inn, some pfw, none,
            if de > inn * 0.9 then true else false⟩ ∧
        ((calculate_implied_odds c pot stack street de).should_call = true ↔
          de > inn * 0.9)) := by
  constructor
  · intro h
    simp [calculate_implied_odds, h]
  · intro h
    have hn : ¬ c ≤ 0 := not_le.mpr h
    refine ⟨_, _, _, rfl, rfl, rfl, ?_, ?_⟩
    · simp only [calculate_implied_odds, if_neg hn]
    · simp only [calculate_implied_odds, if_neg hn]
      split_ifs <;> simp_all

/-- Witness for C5: both branches at concrete inputs (callCost 0 and
callCost 20, pot 100, stack 1000, flop, draw equity 0.3). -/
theorem C5_implied_odds_contract_witness :
    calculate_implied_odds 0 100 1000 "flop" 0.3 =
      ⟨none, none, none, some 0, true⟩ ∧
    (∃ pfw dn inn,
      pfw = min ((1000 : ℚ) * 0.3 * 0.3 * street_multiplier "flop")
        ((1000 : ℚ) * 0.5) ∧
      dn = (20 : ℚ) / ((100 : ℚ) + (20 : ℚ)) ∧
      inn = (if (100 : ℚ) + pfw > (20 : ℚ) then (20 : ℚ) / ((100 : ℚ) + pfw)
        else dn) ∧
      calculate_implied_odds 20 100 1000 "flop" 0.3 =
        ⟨some dn, some inn, some pfw, none,
          if (0.3 : ℚ) > inn * 0.9 then true else false⟩ ∧
      ((calculate_implied_odds 20 100 1000 "flop" 0.3).should_call = true ↔
        (0.3 : ℚ) > inn * 0.9)) :=
  ⟨(C5_implied_odds_contract 0 100 1000 "flop" 0.3).1 (by norm_num),
   (C5_implied_odds_contract 20 100 1000 "flop" 0.3).2 (by norm_num)⟩

/- ### Claim C4 -/

/-- C4 counterexample: facing an outstanding bet of 40 in a 200 pot with
total strength 0.5 (the `> 0.45` band), the source raises by 60 (it targets
`0.50 × pot`), while the claimed model — the SAME fraction table as the
opening bet, i.e. `0.33` in that band — would raise by 40. -/
theorem C4_counterexample :
    calculate_amount "raise" 1000 0 40 0.5 0 200 = 60 ∧
    claim_raise_increment 0.5 0 200 40 = 40 ∧ (60 : ℤ) ≠ 40 := by
  norm_num +decide [calculate_amount, claim_raise_increment]

/-- C4 (amended): with no outstanding bet the opening size follows the
claimed pot-fraction model exactly (`max(2×bigBlind, ⌊pot × fraction⌋)` with
bands >0.80→0.75, >0.60→0.66, drawEquity>0.25→0.60, >0.45→0.33, else 0.25);
facing an outstanding bet, the target total bet uses 0.50 — not the opening
table's 0.33 — in the `> 0.45` band (other bands as claimed, weakest band
`currentBet + 2×bigBlind`), and the increment is
`max(2×bigBlind, target − currentBet)`.  The claim's concrete examples hold:
pot 200, big blind 20, combined strength 0.85 give an opening bet of 150 and,
against currentBet 40, a raise increment of 110. -/
theorem C4_pot_fraction_sizing (chips atc cb : ℤ) (hs de : ℚ) (pot : ℤ)
    (hpot : 0 < pot) :
    (cb = 0 → calculate_amount "bet" chips atc cb hs de pot =
      claim_bet_size hs de pot) ∧
    (calculate_amount "raise" chips atc cb hs de pot =
      if cb = 0 then claim_bet_size hs de pot
      else amended_raise_increment hs de pot cb) ∧
    calculate_amount "bet" chips atc 0 0.85 0 200 = 150 ∧
    calculate_amount "raise" chips atc 40 0.85 0 200 = 110 := by
  have hnp : ¬ pot ≤ 0 := not_le.mpr hpot
  refine ⟨?_, ?_, ?_, ?_⟩
  · intro hcb
    simp only [calculate_amount, claim_bet_size, if_neg hnp, hcb]
    norm_num +decide
    split_ifs <;> rfl
  · simp only [calculate_amount, claim_bet_size, amended_raise_increment,
      if_neg hnp]
    norm_num +decide
    split_ifs <;> omega
  · norm_num +decide [calculate_amount]
  · norm_num +decide [calculate_amount]

/-- Witness for C4 at pot 200, current bet 40, strength 0.5. -/
theorem C4_pot_fraction_sizing_witness :
    calculate_amount "raise" 1000 0 40 0.5 0 200 =
      (if (40 : ℤ) = 0 then claim_bet_size 0.5 0 200
        else amended_raise_increment 0.5 0 200 40) :=
  (C4_pot_fraction_sizing 1000 0 40 0.5 0 200 (by norm_num)).2.1

/- ### Claim C2 -/

/-- C2 counterexample: at a request satisfying BOTH the call-on-odds
condition (drawEquity 0.35 > 0.15, shouldCall, call legal) and the semi-bluff
condition (drawEquity > 0.30, hand strength 0.3 < 0.5, raise legal), the
engine returns call — the caller is NEVER overridden to a raiser. -/
theorem C2_counterexample :
    postflop_decision 1000 ["fold", "call", "raise"] 20 40 0.3 0.35 0.5 true
      (get_strategy_by_spr (some 10) 0.3 0.35) base_config 200 0 =
      (Action.call, 0) ∧
    (Action.call, (0 : ℤ)) ≠ (Action.raise, max 40 (40 + 20)) := by
  constructor
  · norm_num +decide [postflop_decision, get_strategy_by_spr, spr_gt]
  · simp

/-- C2 (amended): when push-or-fold is off and drawEquity > 0.15, the
call-on-odds branch returns first — whenever `shouldCall` holds and call is
legal the decision is `(call, 0)`, so a caller is never overridden to a
raiser; the semi-bluff raise to `max(40, currentBet + 20)` fires exactly when
the call branch does not take effect (shouldCall fails or call is illegal)
while drawEquity > 0.30, hand strength < 0.5 and raise is legal. -/
theorem C2_call_branch_priority (chips : ℤ) (avail : List String)
    (atc cb : ℤ) (hs de te : ℚ) (sc : Bool) (g : SprGuidance)
    (cfg : StrategyConfig) (pot : ℤ) (r : ℚ)
    (hpf : g.push_fold = false) (hde : de > 0.15) :
    (sc = true → "call" ∈ avail →
      postflop_decision chips avail atc cb hs de te sc g cfg pot r =
        (Action.call, 0)) ∧
    (¬ (sc = true ∧ "call" ∈ avail) → de > 0.30 → hs < 0.5 →
      "raise" ∈ avail →
      postflop_decision chips avail atc cb hs de te sc g cfg pot r =
        (Action.raise, max 40 (cb + 20))) := by
  constructor
  · intro hsc hcall
    simp only [postflop_decision, hpf, Bool.false_eq_true, if_false]
    rw [if_pos ⟨hde, hsc, hcall⟩]
  · intro hnot hde3 hhs hraise
    simp only [postflop_decision, hpf, Bool.false_eq_true, if_false]
    rw [if_neg (fun hcond => hnot ⟨hcond.2.1, hcond.2.2⟩),
      if_pos ⟨hde, hde3, hraise, hhs⟩]

/-- Witness for C2 at the counterexample request (call side) and at the same
request with `shouldCall` off (raise side). -/
theorem C2_call_branch_priority_witness :
    postflop_decision 1000 ["fold", "call", "raise"] 20 40 0.3 0.35 0.5 true
      (get_strategy_by_spr (some 10) 0.3 0.35) base_config 200 0 =
      (Action.call, 0) ∧
    postflop_decision 1000 ["fold", "call", "raise"] 20 40 0.3 0.35 0.5 false
      (get_strategy_by_spr (some 10) 0.3 0.35) base_config 200 0 =
      (Action.raise, max 40 (40 + 20)) :=
  ⟨(C2_call_branch_priority 1000 ["fold", "call", "raise"] 20 40 0.3 0.35 0.5
      true (get_strategy_by_spr (some 10) 0.3 0.35) base_config 200 0
      (by norm_num [get_strategy_by_spr, spr_gt]) (by norm_num)).1 rfl
      (by simp),
   (C2_call_branch_priority 1000 ["fold", "call", "raise"] 20 40 0.3 0.35 0.5
      false (get_strategy_by_spr (some 10) 0.3 0.35) base_config 200 0
      (by norm_num [get_strategy_by_spr, spr_gt]) (by norm_num)).2
      (by simp) (by norm_num) (by norm_num) (by simp)⟩

/- ### Claim C3 -/

/-- C3 counterexample: two decision requests whose legal-action set contains
check on which the engine nevertheless returns fold — pre-community with a
premium hand (0.85) but neither raise nor bet legal and checking free, and
post-community in the push-or-fold regime (SPR 2) with weak equity. -/
theorem C3_counterexample :
    ("check" ∈ ["check"] ∧
      preflop_decision ["check"] 0 0.85 "MP" = (Action.fold, 0)) ∧
    ("check" ∈ ["check", "fold"] ∧
      postflop_decision 500 ["check", "fold"] 0 0 0.1 0 0.1 false
        (get_strategy_by_spr (some 2) 0.1 0) base_config 100 0 =
        (Action.fold, 0)) := by
  refine ⟨⟨by simp, ?_⟩, ⟨by simp, ?_⟩⟩
  · norm_num +decide [preflop_decision, preflop_adjusted_threshold,
      preflop_position_multiplier, TIER3_THRESHOLD]
  · norm_num +decide [postflop_decision, get_strategy_by_spr, spr_gt]

/-- C3 (amended): within the post-community weighted-sampling step the claim
holds — when check is legal, fold is removed from the weighted set, and (with
push-or-fold off) the decision can be fold only when the filtered weighted
set is empty.  It does NOT hold of the engine as a whole: the push-or-fold
branch and the pre-community paths can return fold even when check is legal
(see the counterexample). -/
theorem C3_check_suppresses_fold (chips : ℤ) (avail : List String)
    (atc cb : ℤ) (hs de te : ℚ) (sc : Bool) (g : SprGuidance)
    (cfg : StrategyConfig) (pot : ℤ) (r : ℚ)
    (hpf : g.push_fold = false) (hcheck : "check" ∈ avail) :
    "fold" ∉ (postflop_valid avail hs de cfg).map Prod.fst ∧
    ((postflop_decision chips avail atc cb hs de te sc g cfg pot r).1 =
        Action.fold →
      postflop_valid avail hs de cfg = []) := by
  refine ⟨postflop_valid_no_fold avail hs de cfg hcheck, ?_⟩
  intro hfold
  by_contra hne
  simp only [postflop_decision, hpf, Bool.false_eq_true, if_false] at hfold
  rcases Decidable.em (de > 0.15 ∧ sc = true ∧ "call" ∈ avail) with hA | hA
  · rw [if_pos hA] at hfold
    exact Action.noConfusion hfold
  rw [if_neg hA] at hfold
  rcases Decidable.em (de > 0.15 ∧ de > 0.30 ∧ "raise" ∈ avail ∧ hs < 0.5)
    with hB | hB
  · rw [if_pos hB] at hfold
    exact Action.noConfusion hfold
  rw [if_neg hB, if_neg hne] at hfold
  · have hmem : weighted_choice (postflop_valid avail hs de cfg) r ∈
        (postflop_valid avail hs de cfg).map Prod.fst :=
      weighted_choice_mem _ r hne
        (fun p hp => postflop_valid_pos avail hs de cfg p hp)
    have hkeys : weighted_choice (postflop_valid avail hs de cfg) r ∈
        ["fold", "check", "call", "bet", "raise", "all_in"] := by
      rcases List.mem_map.mp hmem with ⟨p, hp, hname⟩
      rw [← weights_keys hs de cfg]
      exact List.mem_map.mpr
        ⟨p, postflop_valid_mem_weights avail hs de cfg p hp, hname⟩
    have hnf : weighted_choice (postflop_valid avail hs de cfg) r ≠ "fold" := by
      intro hcontra
      exact postflop_valid_no_fold avail hs de cfg hcheck (hcontra ▸ hmem)
    have hfive : weighted_choice (postflop_valid avail hs de cfg) r ∈
        ["check", "call", "bet", "raise", "all_in"] := by
      simp only [List.mem_cons, List.not_mem_nil, or_false] at hkeys ⊢
      rcases hkeys with h | h
      · exact absurd h hnf
      · exact h
    exact action_map_ne_fold _ hfive hfold

/-- Witness for C3 at a concrete sampling-step request: equity band > 0.45
with check and call legal; fold is out of the weighted set and the decision
is not fold. -/
theorem C3_check_suppresses_fold_witness :
    "fold" ∉ (postflop_valid ["fold", "check", "call"] 0.6 0
      base_config).map Prod.fst ∧
    ((postflop_decision 500 ["fold", "check", "call"] 0 0 0.6 0 0.6 false
        (get_strategy_by_spr (some 10) 0.6 0) base_config 100 0).1 =
        Action.fold →
      postflop_valid ["fold", "check", "call"] 0.6 0 base_config = []) :=
  C3_check_suppresses_fold 500 ["fold", "check", "call"] 0 0 0.6 0 0.6 false
    (get_strategy_by_spr (some 10) 0.6 0) base_config 100 0
    (by norm_num [get_strategy_by_spr, spr_gt]) (by simp)

/- ### Claim C10 -/

/-- C10: the engine returns all-in only through the push-or-fold branch of
the post-community decision: the pre-community decision never returns
all-in, and a post-community all-in implies the SPR guidance had its
push-or-fold flag set — which happens exactly in the SPR ≤ 3 regime — with
the combined equity at or above the commit threshold.  (The weighted
sampling step can never produce all-in because its weight is 0 in every
band.) -/
theorem C10_allin_only_push_fold (availP : List String) (atcP : ℤ)
    (hsP : ℚ) (posP : String) (chips : ℤ) (avail : List String)
    (atc cb : ℤ) (hs de te : ℚ) (sc : Bool) (spr : Option ℚ)
    (cfg : StrategyConfig) (pot : ℤ) (r : ℚ) :
    (preflop_decision availP atcP hsP posP).1 ≠ Action.allin ∧
    ((postflop_decision chips avail atc cb hs de te sc
        (get_strategy_by_spr spr hs de) cfg pot r).1 = Action.allin →
      (get_strategy_by_spr spr hs de).push_fold = true ∧
      te ≥ (get_strategy_by_spr spr hs de).commit_threshold ∧
      ∃ q, spr = some q ∧ q ≤ 3) := by
  constructor
  · simp only [preflop_decision]
    split_ifs <;> simp
  · intro hallin
    simp only [postflop_decision] at hallin
    rcases Decidable.em ((get_strategy_by_spr spr hs de).push_fold = true)
      with hp | hp
    · rw [if_pos hp] at hallin
      rcases Decidable.em
          (te ≥ (get_strategy_by_spr spr hs de).commit_threshold) with h1 | h1
      · exact ⟨hp, h1, (push_fold_iff spr hs de).mp hp⟩
      · rw [if_neg h1] at hallin
        exact Action.noConfusion hallin
    rw [if_neg hp] at hallin
    rcases Decidable.em (de > 0.15 ∧ sc = true ∧ "call" ∈ avail) with hA | hA
    · rw [if_pos hA] at hallin
      exact Action.noConfusion hallin
    rw [if_neg hA] at hallin
    rcases Decidable.em (de > 0.15 ∧ de > 0.30 ∧ "raise" ∈ avail ∧ hs < 0.5)
      with hB | hB
    · rw [if_pos hB] at hallin
      exact Action.noConfusion hallin
    rw [if_neg hB] at hallin
    rcases Decidable.em (postflop_valid avail hs de cfg = []) with hv | hv
    · rw [if_pos hv] at hallin
      exact Action.noConfusion hallin
    rw [if_neg hv] at hallin
    · exfalso
      have h4 := hv
      have hname := action_map_eq_allin _ hallin
      have hmem : weighted_choice (postflop_valid avail hs de cfg) r ∈
          (postflop_valid avail hs de cfg).map Prod.fst :=
        weighted_choice_mem _ r h4
          (fun p hp => postflop_valid_pos avail hs de cfg p hp)
      rcases List.mem_map.mp hmem with ⟨p, hp, hpname⟩
      have hzero : p.2 = 0 :=
        allin_weight_zero hs de cfg p
          (postflop_valid_mem_weights avail hs de cfg p hp)
          (hpname.trans hname)
      have hpos := postflop_valid_pos avail hs de cfg p hp
      rw [hzero] at hpos
      exact lt_irrefl 0 hpos

/-- Witness for C10: a concrete push-or-fold all-in (SPR 1, combined equity
0.9 ≥ commit threshold 0.45). -/
theorem C10_allin_only_push_fold_witness :
    (get_strategy_by_spr (some 1) 0.6 0).push_fold = true ∧
    (0.9 : ℚ) ≥ (get_strategy_by_spr (some 1) 0.6 0).commit_threshold ∧
    ∃ q, (some (1 : ℚ)) = some q ∧ q ≤ 3 :=
  (C10_allin_only_push_fold [] 0 0 "EP" 500 ["fold"] 0 0 0.6 0 0.9 false
      (some 1) base_config 100 0).2
    (by norm_num +decide [postflop_decision, get_strategy_by_spr, spr_gt])

/- ### Opponent-model helper lemmas (claims C1 and C6) -/

theorem calculate_tendencies_hands (d : OpponentRecord) :
    (calculate_tendencies d).hands_observed = d.hands_observed := by
  simp only [calculate_tendencies]
  split_ifs <;> rfl

theorem set_record_hands_sum (data : List (String × OpponentRecord))
    (n : String) (f : OpponentRecord → OpponentRecord)
    (hf : ∀ d, (f d).hands_observed = d.hands_observed) :
    ((set_record data n f).map (fun p => p.2.hands_observed)).sum =
      (data.map (fun p => p.2.hands_observed)).sum := by
  induction data with
  | nil => rfl
  | cons p rest ih =>
    simp only [set_record, List.map_cons, List.sum_cons] at ih ⊢
    split_ifs
    · rw [hf, ih]
    · rw [ih]

theorem update_core_active (s : SharkState) (n a : String) (ib fc : Bool) :
    (update_core s n a ib fc).adaptation_active =
      observe_active s (set_record s.opponent_data n
        (observe_record a ib fc)) := by
  simp only [update_core]
  split_ifs <;> rfl

theorem update_core_total (s : SharkState) (n a : String) (ib fc : Bool) :
    total_hands_observed (update_core s n a ib fc) =
      ((set_record s.opponent_data n (observe_record a ib fc)).map
        (fun p => p.2.hands_observed)).sum := by
  simp only [update_core, total_hands_observed]
  split_ifs
  · exact set_record_hands_sum _ n calculate_tendencies calculate_tendencies_hands
  · exact set_record_hands_sum _ n calculate_tendencies calculate_tendencies_hands
  · rfl

theorem observe_active_of_total (s : SharkState)
    (data1 : List (String × OpponentRecord))
    (h : 20 ≤ (data1.map (fun p => p.2.hands_observed)).sum) :
    observe_active s data1 = true := by
  simp only [observe_active]
  have hstart : base_config.adaptation_start = 20 := rfl
  rw [hstart]
  split_ifs with h1 h2
  any_goals rfl

theorem observe_active_mono (s : SharkState)
    (data1 : List (String × OpponentRecord))
    (h : s.adaptation_active = true) : observe_active s data1 = true := by
  simp only [observe_active, h, if_true]

theorem update_after_action_active_of_total (s : SharkState)
    (n a st : String) (ib fc : Bool)
    (hprev : 20 ≤ total_hands_observed s → s.adaptation_active = true)
    (h : 20 ≤ total_hands_observed (update_after_action s n a st ib fc)) :
    (update_after_action s n a st ib fc).adaptation_active = true := by
  by_cases hreg : has_opponent s.opponent_data n = false
  · rw [update_after_action, if_pos hreg] at h ⊢
    exact hprev h
  · rw [update_after_action, if_neg hreg] at h ⊢
    rw [update_core_total] at h
    rw [update_core_active]
    exact observe_active_of_total s _ h

theorem update_after_action_active_mono (s : SharkState)
    (n a st : String) (ib fc : Bool) (h : s.adaptation_active = true) :
    (update_after_action s n a st ib fc).adaptation_active = true := by
  by_cases hreg : has_opponent s.opponent_data n = false
  · rw [update_after_action, if_pos hreg]
    exact h
  · rw [update_after_action, if_neg hreg, update_core_active]
    exact observe_active_mono s _ h

theorem apply_observations_active_invariant (l : List Observation)
    (s : SharkState)
    (hs : 20 ≤ total_hands_observed s → s.adaptation_active = true)
    (h : 20 ≤ total_hands_observed (apply_observations s l)) :
    (apply_observations s l).adaptation_active = true := by
  induction l generalizing s with
  | nil => exact hs h
  | cons o rest ih =>
    simp only [apply_observations, List.foldl_cons] at h ⊢
    exact ih _ (fun ht => update_after_action_active_of_total s o.player_name
      o.action o.street o.is_bluff o.facing_cbet hs ht) h

theorem apply_observations_active_mono (l : List Observation) (s : SharkState)
    (h : s.adaptation_active = true) :
    (apply_observations s l).adaptation_active = true := by
  induction l generalizing s with
  | nil => exact h
  | cons o rest ih =>
    simp only [apply_observations, List.foldl_cons] at *
    exact ih _ (update_after_action_active_mono s o.player_name o.action
      o.street o.is_bluff o.facing_cbet h)

theorem total_hands_init (players : List Player) :
    total_hands_observed (initialize_opponents players) = 0 := by
  simp only [total_hands_observed, initialize_opponents, List.map_map]
  apply List.sum_eq_zero
  intro x hx
  rcases List.mem_map.mp hx with ⟨p, hp, hx2⟩
  exact hx2 ▸ rfl

theorem string_append_data (a b : String) :
    (a ++ b).data = a.data ++ b.data := by
  cases a; cases b; rfl

theorem summary_prefix_ne_observing (t : String) :
    "[鲨鱼AI] 分析: " ++ t ≠ "[鲨鱼AI] 观察中..." := by
  intro h
  have h2 := congrArg (fun s => s.data[7]?) h
  simp [string_append_data] at h2

theorem summary_ne_observing (s : SharkState)
    (h : s.adaptation_active = true) :
    get_opponent_summary s ≠ "[鲨鱼AI] 观察中..." := by
  simp only [get_opponent_summary, h, Bool.true_eq_false, if_false]
  split_ifs with h2
  · exact summary_prefix_ne_observing _
  · decide

/- ### Claim C6 -/

/-- C6: adaptation activation is monotone and sticky within a session — for
every registration and every sequence of observe calls after it, once the
total observed hands across tracked opponents reaches 20 the activation flag
is true, it stays true under every further sequence of observe calls, and
`get_opponent_summary` never again returns the "observing" string. -/
theorem C6_adaptation_sticky (players : List Player)
    (obs more : List Observation)
    (h : 20 ≤ total_hands_observed
      (apply_observations (initialize_opponents players) obs)) :
    (apply_observations (initialize_opponents players) obs).adaptation_active
      = true ∧
    (apply_observations (apply_observations (initialize_opponents players)
      obs) more).adaptation_active = true ∧
    get_opponent_summary (apply_observations (apply_observations
      (initialize_opponents players) obs) more) ≠ "[鲨鱼AI] 观察中..." := by
  have h0 : 20 ≤ total_hands_observed (initialize_opponents players) →
      (initialize_opponents players).adaptation_active = true := by
    intro hcontra
    rw [total_hands_init] at hcontra
    omega
  have h1 := apply_observations_active_invariant obs _ h0 h
  have h2 := apply_observations_active_mono more _ h1
  exact ⟨h1, h2, summary_ne_observing _ h2⟩

set_option maxHeartbeats 2000000 in
/-- Witness for C6: one registered opponent observed for 20 called hands,
plus one further observation; the threshold is met, the flag is on and the
summary is not "observing". -/
theorem C6_adaptation_sticky_witness :
    (apply_observations (initialize_opponents players_one)
      (List.replicate 20 ⟨"P", "call", "flop", false, false⟩)).adaptation_active
      = true ∧
    (apply_observations (apply_observations (initialize_opponents players_one)
      (List.replicate 20 ⟨"P", "call", "flop", false, false⟩))
      [⟨"P", "fold", "flop", false, false⟩]).adaptation_active = true ∧
    get_opponent_summary (apply_observations (apply_observations
      (initialize_opponents players_one)
      (List.replicate 20 ⟨"P", "call", "flop", false, false⟩))
      [⟨"P", "fold", "flop", false, false⟩]) ≠ "[鲨鱼AI] 观察中..." :=
  C6_adaptation_sticky players_one
    (List.replicate 20 ⟨"P", "call", "flop", false, false⟩)
    [⟨"P", "fold", "flop", false, false⟩]
    (by norm_num +decide [players_one, apply_observations, initialize_opponents,
      update_after_action, update_core, observe_record, observe_active,
      has_opponent, get_record, set_record, calculate_tendencies,
      update_strategy, avg_tendencies, total_hands_observed, init_record,
      base_config, List.replicate, List.foldl, min_def, max_def])

/- ### Claim C1 -/

set_option maxHeartbeats 4000000 in
/-- C1 counterexample: two observe-call histories (A: 9 folds then 21
bluffed raises; B: 6 folds then 14 bluffed raises, same single opponent and
the same baseline) end with EQUAL latest aggregate tendency snapshots
(3/5, 1, 0) but DIFFERENT current configurations: in history A an earlier
update triggered the fold-exploiting rule, and the bluff-frequency it wrote
(0.3) survives the later updates in which that rule no longer triggers, while
history B keeps the baseline 0.15.  The current config is therefore not
derivable from the baseline plus the latest aggregate tendencies alone. -/
theorem C1_counterexample :
    avg_tendencies state_A.opponent_data =
      avg_tendencies state_B.opponent_data ∧
    state_A.current_config.bluff_freq = 3/10 ∧
    state_B.current_config.bluff_freq = 3/20 ∧
    state_A.current_config ≠ state_B.current_config := by
  have hA : state_A = ⟨[("P", ⟨30, 9, 0, 21, 21, 0, 0, 0, 0, 0, 3/5, 1, 0⟩)],
      true, 30, ⟨(15, 20), (10, 16), 3, 3/10, 3/10, 1/4, 3/5, 1/2, 20, 1/10⟩⟩ := by
    norm_num +decide [state_A, obs_hist_A, players_one, apply_observations,
      initialize_opponents, update_after_action, update_core, observe_record,
      observe_active, has_opponent, get_record, set_record,
      calculate_tendencies, update_strategy, avg_tendencies, init_record,
      base_config, List.replicate, List.foldl, min_def, max_def]
  have hB : state_B = ⟨[("P", ⟨20, 6, 0, 14, 14, 0, 0, 0, 0, 0, 3/5, 1, 0⟩)],
      true, 20, ⟨(15, 20), (10, 16), 5/2, 3/20, 3/10, 1/4, 9/20, 1/2, 20, 1/10⟩⟩ := by
    norm_num +decide [state_B, obs_hist_B, players_one, apply_observations,
      initialize_opponents, update_after_action, update_core, observe_record,
      observe_active, has_opponent, get_record, set_record,
      calculate_tendencies, update_strategy, avg_tendencies, init_record,
      base_config, List.replicate, List.foldl, min_def, max_def]
  rw [hA, hB]
  refine ⟨by norm_num [avg_tendencies], rfl, rfl, ?_⟩
  intro hcontra
  have hproj := congrArg (fun c => c.bluff_freq) hcontra
  norm_num at hproj

/-- C1 (amended): the reset half of the claim holds — whenever none of the
three adaptation rules triggers on the aggregate tendencies, the recomputed
configuration is exactly the baseline (for an empty registry the source
returns early keeping the current config).  The derivability half is false:
see the counterexample — a field written by a previously-triggered rule
survives later recomputations in which only other rules trigger. -/
theorem C1_no_trigger_resets_to_baseline (cur : StrategyConfig)
    (data : List (String × OpponentRecord))
    (h1 : ¬ (avg_tendencies data).1 > 0.6)
    (h2 : ¬ (avg_tendencies data).2.1 > 0.4)
    (h3 : ¬ (avg_tendencies data).2.2 > 0.5) :
    update_strategy cur data = if data = [] then cur else base_config := by
  by_cases hd : data = []
  · simp [update_strategy, hd]
  · simp [update_strategy, hd, h1, h2, h3]

/-- Witness for C1 (amended) on a registry whose tendencies trigger no rule,
with a drifted current config: the recomputation returns the baseline. -/
theorem C1_no_trigger_resets_to_baseline_witness :
    update_strategy { base_config with bluff_freq := 0.3 }
        [("P", record_no_trigger)] =
      if ([("P", record_no_trigger)] : List (String × OpponentRecord)) = []
        then { base_config with bluff_freq := 0.3 }
      else base_config :=
  C1_no_trigger_resets_to_baseline _ _
    (by norm_num [avg_tendencies, record_no_trigger, init_record])
    (by norm_num [avg_tendencies, record_no_trigger, init_record])
    (by norm_num [avg_tendencies, record_no_trigger, init_record])

end TexasShark
